import Mathlib

/-!
Verification of the RAG pipeline (document ingestion, chunking, embedding,
vector search) against its natural-language specification.

The Python sources are shallowly embedded: pure functions become Lean
functions, external services (Milvus collection search, the Watsonx
embedding provider, the filesystem) become explicit oracle parameters,
and Python exceptions become Except values.  Machine reals (similarity
scores, thresholds) are modelled as rationals; Python ints as Int/Nat.
-/

namespace RAGSpec

/-! ## Settings (config/settings.py)

Only the fields the verified components consume. Defaults follow
config/settings.py: rag_chunk_size=80, rag_chunk_overlap=10, rag_top_k=5,
rag_score_threshold=0.7. -/

structure Settings where
  ragChunkSize : Int
  ragChunkOverlap : Int
  ragTopK : Int
  ragScoreThreshold : Rat
  deriving Repr, DecidableEq

def defaultSettings : Settings :=
  { ragChunkSize := 80
    ragChunkOverlap := 10
    ragTopK := 5
    ragScoreThreshold := (7 : Rat) / 10 }

/-! ## Text normalization (DocumentProcessor._clean_text)

The Python code runs, in order:
  1. re.sub(r"\s+", " ", text)          — collapse whitespace runs to one space
  2. re.sub(r"[^\w\s.,!?;:()\-\"']", "", text) — drop unsafe characters
  3. text.replace("\r\n", "\n").replace("\r", "\n") — normalize CR variants
  4. text.strip()                        — trim surrounding whitespace

Python's regex \s over str matches the Unicode white-space characters;
pyIsSpace lists them.  \w is modelled on its ASCII fragment
(alphanumerics and underscore); every theorem below either holds for any
choice of word-character predicate or is evaluated on ASCII input, where
the model and CPython agree exactly. -/

/-- Characters matched by CPython's regex \s on str (Unicode mode). -/
def pyIsSpace (c : Char) : Bool :=
  let n := c.toNat
  (9 ≤ n && n ≤ 13) || (28 ≤ n && n ≤ 31) || n = 32 || n = 0x85 || n = 0xA0 ||
    n = 0x1680 || (0x2000 ≤ n && n ≤ 0x200A) || n = 0x2028 || n = 0x2029 ||
    n = 0x202F || n = 0x205F || n = 0x3000

/-- ASCII fragment of regex \w: alphanumerics and underscore. -/
def pyIsWord (c : Char) : Bool :=
  c.isAlphanum || c = '_'

/-- The punctuation kept by the character allowlist in _clean_text:
. , ! ? ; : ( ) - double-quote single-quote. -/
def allowedPunct (c : Char) : Bool :=
  c = '.' || c = ',' || c = '!' || c = '?' || c = ';' || c = ':' ||
    c = '(' || c = ')' || c = '-' || c = '"' || c = Char.ofNat 39

/-- A character surviving step 2's class [^\w\s.,!?;:()\-\"'] deletion. -/
def isSafeChar (c : Char) : Bool :=
  pyIsWord c || pyIsSpace c || allowedPunct c

/-- Step 1 worker: the flag records whether the previous character was
whitespace (in which case the current run already emitted its space). -/
def collapseWsAux : Bool → List Char → List Char
  | _, [] => []
  | prevSpace, c :: cs =>
    if pyIsSpace c then
      if prevSpace then collapseWsAux true cs
      else ' ' :: collapseWsAux true cs
    else c :: collapseWsAux false cs

/-- Step 1: re.sub(r"\s+", " ") — each maximal whitespace run becomes one
space. -/
def collapseWs (l : List Char) : List Char :=
  collapseWsAux false l

/-- Step 3: replace("\r\n", "\n") then replace("\r", "\n") — every CRLF
pair and every lone CR becomes a line feed. -/
def replaceCR : List Char → List Char
  | [] => []
  | '\r' :: '\n' :: t => '\n' :: replaceCR t
  | '\r' :: t => '\n' :: replaceCR t
  | c :: t => c :: replaceCR t

/-- Step 4, leading half: Python str.strip removes surrounding whitespace;
lstrip is dropWhile on the whitespace predicate. -/
def pyStrip (l : List Char) : List Char :=
  ((l.dropWhile pyIsSpace).reverse.dropWhile pyIsSpace).reverse

/-- DocumentProcessor._clean_text, steps 1–4 in source order. -/
def cleanText (s : String) : String :=
  String.mk (pyStrip (replaceCR ((collapseWs s.data).filter isSafeChar)))

/-- Detects two adjacent whitespace characters. -/
def hasWsPair : List Char → Bool
  | c₁ :: c₂ :: t => (pyIsSpace c₁ && pyIsSpace c₂) || hasWsPair (c₂ :: t)
  | _ => false

/-- The only whitespace character a list may still contain is a plain
space. -/
def spaceOnly (c : Char) : Bool :=
  !pyIsSpace c || (c == ' ')

theorem collapseWsAux_spaceOnly (l : List Char) :
    ∀ b, (collapseWsAux b l).all spaceOnly = true := by
  induction l with
  | nil => intro b; rfl
  | cons c t ih =>
    intro b
    by_cases hc : pyIsSpace c = true
    · cases b with
      | true => simpa [collapseWsAux, hc] using ih true
      | false => simp [collapseWsAux, hc, spaceOnly, ih true]
    · simp [collapseWsAux, hc, spaceOnly, ih false]

theorem all_of_sublist {p : Char → Bool} {l₁ l₂ : List Char}
    (h : l₁.Sublist l₂) (h₂ : l₂.all p = true) : l₁.all p = true := by
  rw [List.all_eq_true] at h₂ ⊢
  exact fun c hc => h₂ c (h.subset hc)

theorem pyStrip_sublist (l : List Char) : (pyStrip l).Sublist l := by
  have h₁ : (l.dropWhile pyIsSpace).Sublist l := List.dropWhile_sublist pyIsSpace
  have h₂ : ((l.dropWhile pyIsSpace).reverse.dropWhile pyIsSpace).Sublist
      (l.dropWhile pyIsSpace).reverse := List.dropWhile_sublist pyIsSpace
  have h₃ := h₂.reverse
  rw [List.reverse_reverse] at h₃
  exact (h₃.trans h₁)

theorem replaceCR_of_not_mem : ∀ l : List Char, '\r' ∉ l → replaceCR l = l := by
  intro l
  induction l with
  | nil => intro _; rfl
  | cons c t ih =>
    intro h
    have hc : c ≠ '\r' := by
      intro e; exact h (e ▸ List.mem_cons_self c t)
    have ht : '\r' ∉ t := fun m => h (List.mem_cons_of_mem c m)
    rw [replaceCR.eq_def]
    split
    · next heq => simp at heq
    · next heq => simp only [List.cons.injEq] at heq; exact absurd heq.1 hc
    · next heq => simp only [List.cons.injEq] at heq; exact absurd heq.1 hc
    · next heq =>
      simp only [List.cons.injEq] at heq
      rw [← heq.1, ← heq.2, ih ht]

theorem head?_dropWhile (p : Char → Bool) :
    ∀ l : List Char, ((l.dropWhile p).head?.all fun c => !p c) = true := by
  intro l
  induction l with
  | nil => rfl
  | cons c t ih =>
    by_cases hc : p c = true
    · simpa [List.dropWhile, hc] using ih
    · simp [List.dropWhile, hc]

theorem getLast?_dropWhile_ne_nil (p : Char → Bool) (l : List Char)
    (h : l.dropWhile p ≠ []) : (l.dropWhile p).getLast? = l.getLast? := by
  obtain ⟨t, ht⟩ := List.dropWhile_suffix (l := l) p
  have h₂ := List.getLast?_append_of_ne_nil t h
  rw [ht] at h₂
  exact h₂.symm

theorem pyStrip_head (l : List Char) :
    ((pyStrip l).head?.all fun c => !pyIsSpace c) = true := by
  unfold pyStrip
  set m := (l.dropWhile pyIsSpace).reverse with hm
  by_cases hq : m.dropWhile pyIsSpace = []
  · simp [hq]
  · rw [List.head?_reverse, getLast?_dropWhile_ne_nil pyIsSpace m hq, hm,
      List.getLast?_reverse]
    exact head?_dropWhile pyIsSpace l

theorem pyStrip_getLast (l : List Char) :
    ((pyStrip l).getLast?.all fun c => !pyIsSpace c) = true := by
  unfold pyStrip
  rw [List.getLast?_reverse]
  exact head?_dropWhile pyIsSpace _

theorem not_mem_of_spaceOnly {l : List Char} {c : Char}
    (hall : l.all spaceOnly = true) (hsp : pyIsSpace c = true) (hne : c ≠ ' ') :
    c ∉ l := by
  intro hm
  have h := List.all_eq_true.mp hall c hm
  simp [spaceOnly, hsp] at h
  exact hne h

/-- C7 (amended): the output of _clean_text contains only characters of the
safe set (word characters, whitespace, the punctuation allowlist), the only
whitespace character it can contain is a plain space — in particular no
carriage return and no line feed survive, all line-break variants having been
collapsed to spaces by the initial whitespace collapse — and it has no
leading or trailing whitespace.  (Runs of several spaces can remain: see the
counterexample.) -/
theorem clean_text_safe_charset_and_trim (s : String) :
    (cleanText s).data.all isSafeChar = true ∧
    (cleanText s).data.all spaceOnly = true ∧
    '\r' ∉ (cleanText s).data ∧ '\n' ∉ (cleanText s).data ∧
    ((cleanText s).data.head?.all fun c => !pyIsSpace c) = true ∧
    ((cleanText s).data.getLast?.all fun c => !pyIsSpace c) = true := by
  have hspace : ((collapseWs s.data).filter isSafeChar).all spaceOnly = true :=
    all_of_sublist (List.filter_sublist _) (collapseWsAux_spaceOnly s.data false)
  have hsafe : ((collapseWs s.data).filter isSafeChar).all isSafeChar = true := by
    rw [List.all_eq_true]
    exact fun c hc => (List.mem_filter.mp hc).2
  have hnr : '\r' ∉ (collapseWs s.data).filter isSafeChar :=
    not_mem_of_spaceOnly hspace (by decide) (by decide)
  have hnl : '\n' ∉ (collapseWs s.data).filter isSafeChar :=
    not_mem_of_spaceOnly hspace (by decide) (by decide)
  have hdata : (cleanText s).data = pyStrip ((collapseWs s.data).filter isSafeChar) := by
    show (String.mk _).data = _
    rw [replaceCR_of_not_mem _ hnr]
  rw [hdata]
  have hsub := pyStrip_sublist ((collapseWs s.data).filter isSafeChar)
  exact ⟨all_of_sublist hsub hsafe, all_of_sublist hsub hspace,
    fun hm => hnr (hsub.subset hm), fun hm => hnl (hsub.subset hm),
    pyStrip_head _, pyStrip_getLast _⟩

/-- C7 counterexample: on input "a @ b" the cleaning step returns "a  b",
which contains two adjacent whitespace characters — stripping the disallowed
character joined the two spaces around it, so the claimed absence of
whitespace runs is violated. -/
theorem clean_text_double_space_counterexample :
    cleanText "a @ b" = "a  b" ∧ hasWsPair (cleanText "a @ b").data = true := by
  constructor
  · decide
  · decide

/-! ## Vector search (MilvusClient.search)

The pymilvus collection is external; its search call is an oracle
`collectionHits : Int → List Hit` mapping the limit actually passed to the
hits returned (the Milvus contract bounds its length by the limit).  The
client code then filters by `hit.score >= score_threshold` and builds the
result records.  The two defaulting lines

    top_k = top_k or self.settings.rag_top_k
    score_threshold = score_threshold or self.settings.rag_score_threshold

use Python truthiness, so None *and* the explicit values 0 / 0.0 are both
replaced by the configured defaults. -/

structure Hit where
  id : String
  text : String
  source : String
  timestamp : Int
  score : Rat
  deriving Repr, DecidableEq

structure SearchResult where
  id : String
  text : String
  source : String
  timestamp : Int
  score : Rat
  deriving Repr, DecidableEq

/-- The result dict built per retained hit. -/
def hitToResult (h : Hit) : SearchResult :=
  { id := h.id, text := h.text, source := h.source,
    timestamp := h.timestamp, score := h.score }

/-- top_k or settings.rag_top_k (None and 0 are falsy). -/
def effTopK (topK : Option Int) (s : Settings) : Int :=
  match topK with
  | none => s.ragTopK
  | some v => if v = 0 then s.ragTopK else v

/-- score_threshold or settings.rag_score_threshold (None and 0.0 falsy). -/
def effThreshold (scoreThreshold : Option Rat) (s : Settings) : Rat :=
  match scoreThreshold with
  | none => s.ragScoreThreshold
  | some v => if v = 0 then s.ragScoreThreshold else v

/-- MilvusClient.search: resolve defaults, ask the collection for the top
`k` hits, keep those with score at or above the threshold, in hit order. -/
def milvusSearch (collectionHits : Int → List Hit) (topK : Option Int)
    (scoreThreshold : Option Rat) (s : Settings) : List SearchResult :=
  let k := effTopK topK s
  let t := effThreshold scoreThreshold s
  ((collectionHits k).filter fun h => decide (t ≤ h.score)).map hitToResult

theorem le_effThreshold (t : Rat) (s : Settings)
    (hdef : 0 ≤ s.ragScoreThreshold) : t ≤ effThreshold (some t) s := by
  unfold effThreshold
  by_cases ht : t = 0
  · simpa [ht] using hdef
  · simp [ht]

/-- C1: with a positive explicit top_k `k` and any explicit threshold `t`,
search returns at most `k` results and every returned result scores at
least `t` — provided the backing collection honours its limit contract and
the configured default threshold is nonnegative (it ships as 0.7), which
covers the falsy replacement of an explicit t = 0. -/
theorem milvus_search_topk_and_threshold
    (hits : Int → List Hit) (k : Int) (t : Rat) (s : Settings)
    (hk : 0 < k)
    (hlim : ∀ m : Int, 0 < m → ((hits m).length : Int) ≤ m)
    (hdef : 0 ≤ s.ragScoreThreshold) :
    ((milvusSearch hits (some k) (some t) s).length : Int) ≤ k ∧
      ∀ r ∈ milvusSearch hits (some k) (some t) s, t ≤ r.score := by
  have hkeff : effTopK (some k) s = k := by
    unfold effTopK
    simp [Int.ne_of_gt hk]
  constructor
  · have h₁ : (milvusSearch hits (some k) (some t) s).length ≤ (hits k).length := by
      unfold milvusSearch
      rw [hkeff, List.length_map]
      exact List.length_filter_le _ _
    exact le_trans (by exact_mod_cast h₁) (hlim k hk)
  · intro r hr
    unfold milvusSearch at hr
    rw [List.mem_map] at hr
    obtain ⟨h, hh, hEq⟩ := hr
    rw [List.mem_filter] at hh
    have hscore : effThreshold (some t) s ≤ h.score := of_decide_eq_true hh.2
    have : r.score = h.score := by rw [← hEq]; rfl
    rw [this]
    exact le_trans (le_effThreshold t s hdef) hscore

/-- C1 witness: a one-hit collection, k = 1, t = 1/2, default settings. -/
theorem milvus_search_topk_and_threshold_witness :
    ((milvusSearch (fun _ => [⟨"c1", "text", "doc.txt", 0, (3 : Rat)/4⟩])
        (some 1) (some ((1 : Rat)/2)) defaultSettings).length : Int) ≤ 1 ∧
      ∀ r ∈ milvusSearch (fun _ => [⟨"c1", "text", "doc.txt", 0, (3 : Rat)/4⟩])
          (some 1) (some ((1 : Rat)/2)) defaultSettings, (1 : Rat)/2 ≤ r.score :=
  milvus_search_topk_and_threshold _ 1 ((1 : Rat)/2) defaultSettings
    (by decide) (fun m hm => by simpa using hm) (by norm_num [defaultSettings])

/-- C10: an explicitly passed top_k = 0 or an explicitly passed
score_threshold = 0.0 is discarded by the falsy-or defaulting and behaves
exactly like omitting that argument — each independently, whatever the
other argument is.  In particular search(v, top_k=5, score_threshold=0.0)
filters at the configured default threshold, so a caller cannot request an
unfiltered search by passing 0.0. -/
theorem milvus_search_explicit_zero_is_default (hits : Int → List Hit) (s : Settings)
    (tk : Option Int) (st : Option Rat) :
    milvusSearch hits (some 0) st s = milvusSearch hits none st s ∧
    milvusSearch hits tk (some 0) s = milvusSearch hits tk none s := by
  constructor
  · unfold milvusSearch effTopK
    simp
  · unfold milvusSearch effThreshold
    simp

/-! ## SHA-256 (FIPS 180-4), as used by hashlib.sha256 in
DocumentProcessor._generate_chunk_id

Words are naturals kept below 2^32 by explicit reduction; messages and
digests are byte lists.  The implementation matches the FIPS 180-4 test
vectors (checked below on the empty string and "abc"). -/

namespace Sha256

def M32 : Nat := 4294967296

def add32 (a b : Nat) : Nat := (a + b) % M32

/-- Right rotation of a word already below 2^32. -/
def rotr32 (x n : Nat) : Nat := (x >>> n) ||| ((x <<< (32 - n)) % M32)

def not32 (x : Nat) : Nat := x ^^^ (M32 - 1)

def ch (x y z : Nat) : Nat := (x &&& y) ^^^ (not32 x &&& z)

def maj (x y z : Nat) : Nat := (x &&& y) ^^^ (x &&& z) ^^^ (y &&& z)

def bsig0 (x : Nat) : Nat := rotr32 x 2 ^^^ rotr32 x 13 ^^^ rotr32 x 22

def bsig1 (x : Nat) : Nat := rotr32 x 6 ^^^ rotr32 x 11 ^^^ rotr32 x 25

def ssig0 (x : Nat) : Nat := rotr32 x 7 ^^^ rotr32 x 18 ^^^ (x >>> 3)

def ssig1 (x : Nat) : Nat := rotr32 x 17 ^^^ rotr32 x 19 ^^^ (x >>> 10)

/-- The 64 round constants. -/
def K : List Nat :=
  [0x428A2F98, 0x71374491, 0xB5C0FBCF, 0xE9B5DBA5,
   0x3956C25B, 0x59F111F1, 0x923F82A4, 0xAB1C5ED5,
   0xD807AA98, 0x12835B01, 0x243185BE, 0x550C7DC3,
   0x72BE5D74, 0x80DEB1FE, 0x9BDC06A7, 0xC19BF174,
   0xE49B69C1, 0xEFBE4786, 0x0FC19DC6, 0x240CA1CC,
   0x2DE92C6F, 0x4A7484AA, 0x5CB0A9DC, 0x76F988DA,
   0x983E5152, 0xA831C66D, 0xB00327C8, 0xBF597FC7,
   0xC6E00BF3, 0xD5A79147, 0x06CA6351, 0x14292967,
   0x27B70A85, 0x2E1B2138, 0x4D2C6DFC, 0x53380D13,
   0x650A7354, 0x766A0ABB, 0x81C2C92E, 0x92722C85,
   0xA2BFE8A1, 0xA81A664B, 0xC24B8B70, 0xC76C51A3,
   0xD192E819, 0xD6990624, 0xF40E3585, 0x106AA070,
   0x19A4C116, 0x1E376C08, 0x2748774C, 0x34B0BCB5,
   0x391C0CB3, 0x4ED8AA4A, 0x5B9CCA4F, 0x682E6FF3,
   0x748F82EE, 0x78A5636F, 0x84C87814, 0x8CC70208,
   0x90BEFFFA, 0xA4506CEB, 0xBEF9A3F7, 0xC67178F2]

/-- The initial hash state. -/
def H0 : List Nat :=
  [0x6A09E667, 0xBB67AE85, 0x3C6EF372, 0xA54FF53A,
   0x510E527F, 0x9B05688C, 0x1F83D9AB, 0x5BE0CD19]

def u64be (x : Nat) : List Nat :=
  [(x >>> 56) % 256, (x >>> 48) % 256, (x >>> 40) % 256, (x >>> 32) % 256,
   (x >>> 24) % 256, (x >>> 16) % 256, (x >>> 8) % 256, x % 256]

/-- Append 0x80, zero padding and the big-endian 64-bit bit length, to a
multiple of 64 bytes. -/
def padBytes (msg : List Nat) : List Nat :=
  let len := msg.length
  let zeros := (56 + 64 - (len + 1) % 64) % 64
  msg ++ 0x80 :: List.replicate zeros 0 ++ u64be (8 * len)

/-- Big-endian word `t` of a 64-byte block. -/
def word (b : List Nat) (t : Nat) : Nat :=
  (b.getD (4*t) 0) <<< 24 ||| (b.getD (4*t+1) 0) <<< 16 |||
    (b.getD (4*t+2) 0) <<< 8 ||| b.getD (4*t+3) 0

def extendW (w : List Nat) : List Nat :=
  let n := w.length
  w ++ [add32 (add32 (ssig1 (w.getD (n-2) 0)) (w.getD (n-7) 0))
          (add32 (ssig0 (w.getD (n-15) 0)) (w.getD (n-16) 0))]

/-- The 64-word message schedule of one block. -/
def schedule (b : List Nat) : List Nat :=
  (List.range 48).foldl (fun w _ => extendW w) ((List.range 16).map (word b))

structure Regs where
  a : Nat
  b : Nat
  c : Nat
  d : Nat
  e : Nat
  f : Nat
  g : Nat
  hh : Nat

def round1 (r : Regs) (kw : Nat × Nat) : Regs :=
  let t1 := add32 r.hh (add32 (bsig1 r.e) (add32 (ch r.e r.f r.g) (add32 kw.1 kw.2)))
  let t2 := add32 (bsig0 r.a) (maj r.a r.b r.c)
  ⟨add32 t1 t2, r.a, r.b, r.c, add32 r.d t1, r.e, r.f, r.g⟩

/-- One compression step over a 64-byte block. -/
def compress (st : List Nat) (b : List Nat) : List Nat :=
  let ws := schedule b
  let i : Regs := ⟨st.getD 0 0, st.getD 1 0, st.getD 2 0, st.getD 3 0,
    st.getD 4 0, st.getD 5 0, st.getD 6 0, st.getD 7 0⟩
  let r := (K.zip ws).foldl round1 i
  [add32 (st.getD 0 0) r.a, add32 (st.getD 1 0) r.b, add32 (st.getD 2 0) r.c,
   add32 (st.getD 3 0) r.d, add32 (st.getD 4 0) r.e, add32 (st.getD 5 0) r.f,
   add32 (st.getD 6 0) r.g, add32 (st.getD 7 0) r.hh]

/-- Split into 64-byte blocks; the fuel is instantiated with the padded
length, which always suffices. -/
def splitBlocks : Nat → List Nat → List (List Nat)
  | _, [] => []
  | 0, _ => []
  | fuel+1, l => l.take 64 :: splitBlocks fuel (l.drop 64)

def sha256Words (msg : List Nat) : List Nat :=
  (splitBlocks (padBytes msg).length (padBytes msg)).foldl compress H0

def wordBE (w : Nat) : List Nat :=
  [(w >>> 24) % 256, (w >>> 16) % 256, (w >>> 8) % 256, w % 256]

/-- The 32 digest bytes. -/
def sha256Bytes (msg : List Nat) : List Nat :=
  (sha256Words msg).flatMap wordBE

def hexDigitChar (n : Nat) : Char :=
  if n < 10 then Char.ofNat (48 + n) else Char.ofNat (87 + n)

def byteHex (b : Nat) : List Char :=
  [hexDigitChar ((b >>> 4) % 16), hexDigitChar (b % 16)]

/-- hexdigest: two lowercase hex characters per byte. -/
def bytesToHex (bs : List Nat) : List Char :=
  bs.flatMap byteHex

end Sha256

/-- UTF-8 encoding of one scalar value, as str.encode() produces. -/
def charUtf8 (c : Char) : List Nat :=
  let n := c.toNat
  if n < 0x80 then [n]
  else if n < 0x800 then [0xC0 + (n >>> 6), 0x80 + (n &&& 0x3F)]
  else if n < 0x10000 then
    [0xE0 + (n >>> 12), 0x80 + ((n >>> 6) &&& 0x3F), 0x80 + (n &&& 0x3F)]
  else
    [0xF0 + (n >>> 18), 0x80 + ((n >>> 12) &&& 0x3F),
     0x80 + ((n >>> 6) &&& 0x3F), 0x80 + (n &&& 0x3F)]

def strUtf8 (s : String) : List Nat := s.data.flatMap charUtf8

/-- The string hashed by _generate_chunk_id: "{file_path}:{chunk_index}". -/
def chunkKey (filePath : String) (chunkIndex : Nat) : String :=
  filePath ++ ":" ++ toString chunkIndex

/-- DocumentProcessor._generate_chunk_id: the first 32 hex characters of
the SHA-256 digest of the key string. -/
def generateChunkId (filePath : String) (chunkIndex : Nat) : String :=
  String.mk ((Sha256.bytesToHex (Sha256.sha256Bytes (strUtf8 (chunkKey filePath chunkIndex)))).take 32)

theorem wordBE_lt (w : Nat) : ∀ b ∈ Sha256.wordBE w, b < 256 := by
  intro b hb
  simp only [Sha256.wordBE, List.mem_cons, List.not_mem_nil, or_false] at hb
  rcases hb with rfl | rfl | rfl | rfl <;> exact Nat.mod_lt _ (by norm_num)

theorem sha256Bytes_lt (msg : List Nat) : ∀ b ∈ Sha256.sha256Bytes msg, b < 256 := by
  intro b hb
  unfold Sha256.sha256Bytes at hb
  rw [List.mem_flatMap] at hb
  obtain ⟨w, _, hbw⟩ := hb
  exact wordBE_lt w b hbw

theorem foldl_compress_length (blocks : List (List Nat)) :
    ∀ st : List Nat, st.length = 8 → (blocks.foldl Sha256.compress st).length = 8 := by
  induction blocks with
  | nil => intro st h; exact h
  | cons b bs ih => intro st _; exact ih _ rfl

theorem sha256Words_length (msg : List Nat) : (Sha256.sha256Words msg).length = 8 :=
  foldl_compress_length _ Sha256.H0 rfl

theorem flatMap_wordBE_length (l : List Nat) :
    (l.flatMap Sha256.wordBE).length = 4 * l.length := by
  induction l with
  | nil => rfl
  | cons w t ih =>
    rw [List.flatMap_cons, List.length_append, ih]
    simp [Sha256.wordBE, List.length_cons]
    ring

theorem sha256Bytes_length (msg : List Nat) : (Sha256.sha256Bytes msg).length = 32 := by
  unfold Sha256.sha256Bytes
  rw [flatMap_wordBE_length, sha256Words_length]

theorem bytesToHex_length (bs : List Nat) :
    (Sha256.bytesToHex bs).length = 2 * bs.length := by
  induction bs with
  | nil => rfl
  | cons b t ih =>
    unfold Sha256.bytesToHex at ih ⊢
    rw [List.flatMap_cons, List.length_append, ih]
    simp [Sha256.byteHex]
    ring

theorem bytesToHex_take (n : Nat) (bs : List Nat) :
    (Sha256.bytesToHex bs).take (2 * n) = Sha256.bytesToHex (bs.take n) := by
  induction bs generalizing n with
  | nil => simp [Sha256.bytesToHex]
  | cons b t ih =>
    cases n with
    | zero => simp [Sha256.bytesToHex]
    | succ m =>
      have h2 : 2 * (m + 1) = 2 * m + 1 + 1 := by ring
      rw [List.take_succ_cons,
        show Sha256.bytesToHex (b :: t) = Sha256.byteHex b ++ Sha256.bytesToHex t from rfl,
        show Sha256.bytesToHex (b :: t.take m) =
          Sha256.byteHex b ++ Sha256.bytesToHex (t.take m) from rfl, h2]
      simp only [Sha256.byteHex, List.cons_append, List.nil_append,
        List.take_succ_cons]
      rw [ih m]

theorem getD_lt_256 {l : List Nat} (h : ∀ b ∈ l, b < 256) (k : Nat) :
    l.getD k 0 < 256 := by
  by_cases hk : k < l.length
  · rw [List.getD_eq_getElem l 0 hk]
    exact h _ (List.getElem_mem hk)
  · rw [List.getD_eq_default l 0 (Nat.le_of_not_lt hk)]
    norm_num

theorem take16_eq_of_getD {A B : List Nat} (hA : A.length = 32) (hB : B.length = 32)
    (h : ∀ k : Fin 16, A.getD k.val 0 = B.getD k.val 0) : A.take 16 = B.take 16 := by
  apply List.ext_getElem
  · simp [List.length_take, hA, hB]
  · intro n h₁ h₂
    have hn : n < 16 := by
      rw [List.length_take, hA] at h₁
      omega
    have hA' : n < A.length := by omega
    have hB' : n < B.length := by omega
    rw [List.getElem_take, List.getElem_take]
    have hk := h ⟨n, hn⟩
    rw [List.getD_eq_getElem A 0 hA', List.getD_eq_getElem B 0 hB'] at hk
    exact hk

theorem chunkId_eq_of_take16 (p₁ : String) (i₁ : Nat) (p₂ : String) (i₂ : Nat)
    (h : (Sha256.sha256Bytes (strUtf8 (chunkKey p₁ i₁))).take 16 =
      (Sha256.sha256Bytes (strUtf8 (chunkKey p₂ i₂))).take 16) :
    generateChunkId p₁ i₁ = generateChunkId p₂ i₂ := by
  unfold generateChunkId
  have e : (32 : Nat) = 2 * 16 := rfl
  rw [e, bytesToHex_take, bytesToHex_take, h]

/-- Byte `k` of the digest hashed for path "" and index `i`, as an element
of the finite type Fin 256. -/
def digestByte (i : Nat) (k : Fin 16) : Fin 256 :=
  ⟨(Sha256.sha256Bytes (strUtf8 (chunkKey "" i))).getD k.val 0,
    getD_lt_256 (sha256Bytes_lt _) _⟩

set_option maxHeartbeats 2000000 in
/-- C2 counterexample: chunk IDs are 32-hex-character strings, of which
there are finitely many, while (path, index) pairs are infinite; by the
pigeonhole principle two distinct pairs share an ID, refuting the claim
that distinct pairs always produce distinct IDs. -/
theorem chunk_id_collision_exists :
    ∃ (p₁ : String) (i₁ : Nat) (p₂ : String) (i₂ : Nat),
      ¬(p₁ = p₂ ∧ i₁ = i₂) ∧ generateChunkId p₁ i₁ = generateChunkId p₂ i₂ := by
  obtain ⟨i, j, hij, hg⟩ := Finite.exists_ne_map_eq_of_infinite digestByte
  refine ⟨"", i, "", j, fun hand => hij hand.2, ?_⟩
  apply chunkId_eq_of_take16
  apply take16_eq_of_getD (sha256Bytes_length _) (sha256Bytes_length _)
  intro k
  exact congrArg Fin.val (congrFun hg k)

/-- C2 (amended): the chunk ID is a deterministic pure function of the key
string "{path}:{index}" — equal key strings give equal IDs, so re-runs over
the same document reproduce identical IDs — and every ID is exactly 32 hex
characters.  Distinctness of IDs for distinct pairs, however, can only hold
modulo collisions of the truncated digest (see the counterexample). -/
theorem chunk_id_deterministic (p₁ : String) (i₁ : Nat) (p₂ : String) (i₂ : Nat)
    (h : chunkKey p₁ i₁ = chunkKey p₂ i₂) :
    generateChunkId p₁ i₁ = generateChunkId p₂ i₂ ∧
      (generateChunkId p₁ i₁).length = 32 := by
  constructor
  · unfold generateChunkId
    rw [h]
  · show ((Sha256.bytesToHex _).take 32).length = 32
    rw [List.length_take, bytesToHex_length, sha256Bytes_length]
    omega

/-- C2 witness: the determinism theorem applied at path "doc.txt", index 0. -/
theorem chunk_id_deterministic_witness :
    generateChunkId "doc.txt" 0 = generateChunkId "doc.txt" 0 ∧
      (generateChunkId "doc.txt" 0).length = 32 :=
  chunk_id_deterministic "doc.txt" 0 "doc.txt" 0 rfl

/-! ## Document processing pipeline (DocumentProcessor.process_file /
process_directory)

The filesystem and the third-party extractors (pypdf, python-docx, the
file read) are external: the existence of the path, its suffix, and the
three extraction calls are oracle parameters, as is langchain's
split_text.  Everything after extraction — cleaning, chunk assembly,
metadata — follows the source. -/

structure Chunk where
  id : String
  text : String
  source : String
  chunk_index : Nat
  total_chunks : Nat
  deriving Repr, DecidableEq

inductive ProcError where
  | notFound (msg : String)
  | unsupportedFormat (msg : String)
  | extractionFailed (msg : String)
  deriving Repr, DecidableEq

/-- str.lower() as applied to the extension, modelled over the ASCII
range where file extensions live. -/
def strToLower (s : String) : String :=
  String.mk (s.data.map Char.toLower)

/-- DocumentProcessor.process_file: existence check, extension dispatch,
clean, chunk, assemble chunk dicts.  The FileNotFoundError check comes
first; an unknown extension then raises ValueError("Unsupported file
type"). -/
def processFile (pathExists : Bool) (suffix : String)
    (extractPdf extractDocx extractTxt : Unit → Except String String)
    (splitText : String → List String) (filePath : String) :
    Except ProcError (List Chunk) :=
  if !pathExists then
    Except.error (ProcError.notFound ("File not found: " ++ filePath))
  else
    let extracted : Option (Except String String) :=
      if strToLower suffix = ".pdf" then some (extractPdf ())
      else if strToLower suffix = ".docx" then some (extractDocx ())
      else if strToLower suffix = ".txt" || strToLower suffix = ".md" then
        some (extractTxt ())
      else none
    match extracted with
    | none =>
      Except.error (ProcError.unsupportedFormat ("Unsupported file type: " ++ suffix))
    | some (Except.error e) => Except.error (ProcError.extractionFailed e)
    | some (Except.ok text) =>
      let chunks := splitText (cleanText text)
      Except.ok (chunks.mapIdx fun i c =>
        { id := generateChunkId filePath i
          text := c
          source := filePath
          chunk_index := i
          total_chunks := chunks.length })

/-- DocumentProcessor.process_directory: process each enumerated file,
appending its chunks; a failing file is skipped and the loop continues. -/
def processDirectory (files : List String)
    (processOne : String → Except ProcError (List Chunk)) : List Chunk :=
  files.foldl (fun acc f =>
    match processOne f with
    | Except.ok cs => acc ++ cs
    | Except.error _ => acc) []

/-! ## Orchestrator results (RAGTools) -/

structure IndexResult where
  status : String
  message : String
  chunks_indexed : Nat
  deriving Repr, DecidableEq

/-- RAGTools.index_document, given the outcome of process_file: a raised
error propagates; zero chunks short-circuit to the "No content" result;
otherwise embeddings and the insert succeed (they are external calls whose
own failures also propagate) and the success result reports the chunk
count. -/
def indexDocument (pf : Except ProcError (List Chunk)) : Except ProcError IndexResult :=
  match pf with
  | Except.error e => Except.error e
  | Except.ok chunks =>
    if chunks.isEmpty then
      Except.ok { status := "error"
                  message := "No content extracted from document"
                  chunks_indexed := 0 }
    else
      Except.ok { status := "success"
                  message := "Document indexed successfully"
                  chunks_indexed := chunks.length }

/-- RAGTools.index_directory over the chunks aggregated by
process_directory. -/
def indexDirectory (files : List String)
    (processOne : String → Except ProcError (List Chunk)) : IndexResult :=
  let allChunks := processDirectory files processOne
  if allChunks.isEmpty then
    { status := "error"
      message := "No documents found or processed"
      chunks_indexed := 0 }
  else
    { status := "success"
      message := "Directory indexed successfully"
      chunks_indexed := allChunks.length }

/-! ## Query path (RAGTools.query) -/

structure SourceRef where
  source : String
  score : Rat
  chunk_id : String
  deriving Repr, DecidableEq

/-- The response dict of RAGTools.query; sources is present (some) or the
key is absent (none). -/
structure QueryResult where
  answer : String
  context : List String
  sources : Option (List SourceRef)
  deriving Repr, DecidableEq

/-- The fixed no-match answer string of RAGTools.query. -/
def noInfoAnswer : String :=
  "I couldn\x27t find any relevant information to answer your query."

/-- RAGTools._build_rag_prompt. -/
def buildRagPrompt (query context : String) : String :=
  "You are a helpful AI assistant. Use the following context to answer the user\x27s question. If the context doesn\x27t contain relevant information, say so.\n\nContext:\n"
    ++ context ++ "\n\nQuestion: " ++ query ++ "\n\nAnswer:"

/-- RAGTools.query after the vector search: on empty results return the
fixed no-info response without generating; otherwise build the context
block, call generation once, and assemble the response.  The second
component counts generate_text invocations. -/
def ragQuery (searchResults : List SearchResult) (gen : String → String)
    (includeSources : Bool) (query : String) : QueryResult × Nat :=
  if searchResults.isEmpty then
    ({ answer := noInfoAnswer, context := [], sources := some [] }, 0)
  else
    let contextTexts := searchResults.map (fun r => r.text)
    let context := String.intercalate "\n\n" contextTexts
    let answer := gen (buildRagPrompt query context)
    let sources :=
      if includeSources then
        some (searchResults.map fun r =>
          ({ source := r.source, score := r.score, chunk_id := r.id } : SourceRef))
      else none
    ({ answer := answer, context := contextTexts, sources := sources }, 1)

/-! ## Embedding retries (WatsonxClient, tenacity)

Both generate_embeddings and generate_embedding carry
@retry(stop=stop_after_attempt(3)); generate_embedding calls
generate_embeddings, so a persistently failing provider call is attempted
3 times per inner invocation and the inner invocation itself is retried
3 times by the wrapper.  The provider (embed_documents) is an oracle
indexed by the global attempt number. -/

/-- tenacity's attempt loop with `remaining` further attempts allowed
after the current one; returns the final outcome and the number of calls
made. -/
def attemptLoop {E A : Type} (f : Nat → Except E A) :
    Nat → Nat → Except E A × Nat
  | 0, start => (f start, 1)
  | rem + 1, start =>
    match f start with
    | Except.ok a => (Except.ok a, 1)
    | Except.error _ =>
      let r := attemptLoop f rem (start + 1)
      (r.1, r.2 + 1)

/-- generate_embeddings: at most 3 provider attempts
(stop_after_attempt(3)). -/
def generateEmbeddings {E A : Type} (provider : Nat → Except E A) (start : Nat) :
    Except E A × Nat :=
  attemptLoop provider 2 start

/-- The retry wrapper of generate_embedding around its calls to
generate_embeddings, threading the global provider-attempt counter. -/
def outerLoop {E A : Type} (provider : Nat → Except E A) :
    Nat → Nat → Except E A × Nat
  | 0, start => generateEmbeddings provider start
  | rem + 1, start =>
    let r := generateEmbeddings provider start
    match r.1 with
    | Except.ok a => (Except.ok a, r.2)
    | Except.error _ =>
      let r₂ := outerLoop provider rem (start + r.2)
      (r₂.1, r.2 + r₂.2)

/-- generate_embedding: its own stop_after_attempt(3) retry of the
already-retried batch call.  The second component is the total number of
provider attempts. -/
def generateEmbedding {E A : Type} (provider : Nat → Except E A) :
    Except E A × Nat :=
  outerLoop provider 2 0

/-! ## Chunker construction (DocumentProcessor.__init__)

DocumentProcessor.__init__ performs no validation itself; it converts the
word-based sizes to characters (×5) and hands them to langchain's
RecursiveCharacterTextSplitter, whose base TextSplitter.__init__ raises
ValueError when chunk_overlap > chunk_size — strictly greater, so equality
is accepted. -/

structure TextSplitterState where
  chunkSizeChars : Int
  chunkOverlapChars : Int
  deriving Repr, DecidableEq

/-- DocumentProcessor.__init__ together with the langchain TextSplitter
constructor check. -/
def documentProcessorInit (s : Settings) : Except String TextSplitterState :=
  let sizeChars := s.ragChunkSize * 5
  let overlapChars := s.ragChunkOverlap * 5
  if overlapChars > sizeChars then
    Except.error "Got a larger chunk overlap than chunk size, should be smaller."
  else
    Except.ok { chunkSizeChars := sizeChars, chunkOverlapChars := overlapChars }

/-! ## Claim theorems for the pipeline and orchestrator -/

/-- C9: a path that does not exist fails with the NotFound error whatever
its extension, and an existing path with an extension outside
pdf/docx/txt/md fails with the UnsupportedFormat error — the existence
check runs first. -/
theorem process_file_error_order
    (suffix : String) (epdf edocx etxt : Unit → Except String String)
    (split : String → List String) (path : String) :
    processFile false suffix epdf edocx etxt split path =
      Except.error (ProcError.notFound ("File not found: " ++ path)) ∧
    (strToLower suffix ∉ [".pdf", ".docx", ".txt", ".md"] →
      processFile true suffix epdf edocx etxt split path =
        Except.error (ProcError.unsupportedFormat ("Unsupported file type: " ++ suffix))) := by
  constructor
  · rfl
  · intro h
    simp only [List.mem_cons, List.not_mem_nil, or_false, not_or] at h
    obtain ⟨h1, h2, h3, h4⟩ := h
    simp [processFile, h1, h2, h3, h4]

/-- C9 witness: "missing.txt" with a nonexistent path gives NotFound;
"file.xyz" exists but has an unsupported extension and gives
UnsupportedFormat. -/
theorem process_file_error_order_witness :
    processFile false ".txt" (fun _ => Except.ok "") (fun _ => Except.ok "")
        (fun _ => Except.ok "") (fun _ => []) "missing.txt" =
      Except.error (ProcError.notFound ("File not found: " ++ "missing.txt")) ∧
    processFile true ".xyz" (fun _ => Except.ok "") (fun _ => Except.ok "")
        (fun _ => Except.ok "") (fun _ => []) "file.xyz" =
      Except.error (ProcError.unsupportedFormat ("Unsupported file type: " ++ ".xyz")) :=
  ⟨(process_file_error_order ".txt" (fun _ => Except.ok "") (fun _ => Except.ok "")
      (fun _ => Except.ok "") (fun _ => []) "missing.txt").1,
   (process_file_error_order ".xyz" (fun _ => Except.ok "") (fun _ => Except.ok "")
      (fun _ => Except.ok "") (fun _ => []) "file.xyz").2 (by decide)⟩

/-- C5 counterexample: when process_file yields zero chunks,
index_document returns a result whose status field is the string "error" —
an error status, not the non-error result the claim describes (though
indeed no exception is raised and zero chunks are reported). -/
theorem index_document_zero_chunks_error_status :
    indexDocument (Except.ok ([] : List Chunk)) =
      Except.ok { status := "error"
                  message := "No content extracted from document"
                  chunks_indexed := 0 } :=
  rfl

/-- C5 (amended): a document that processes to zero chunks produces a
structured "No content" result — no exception — with chunks_indexed = 0,
but its status field is "error", not a non-error status. -/
theorem index_document_no_content
    (pathExists : Bool) (suffix : String)
    (epdf edocx etxt : Unit → Except String String)
    (split : String → List String) (path : String)
    (h : processFile pathExists suffix epdf edocx etxt split path = Except.ok []) :
    indexDocument (processFile pathExists suffix epdf edocx etxt split path) =
      Except.ok { status := "error"
                  message := "No content extracted from document"
                  chunks_indexed := 0 } := by
  rw [h]
  rfl

/-- C5 witness: an existing empty .txt file whose splitter returns no
chunks. -/
theorem index_document_no_content_witness :
    indexDocument (processFile true ".txt" (fun _ => Except.ok "")
        (fun _ => Except.ok "") (fun _ => Except.ok "") (fun _ => []) "empty.txt") =
      Except.ok { status := "error"
                  message := "No content extracted from document"
                  chunks_indexed := 0 } :=
  index_document_no_content true ".txt" (fun _ => Except.ok "")
    (fun _ => Except.ok "") (fun _ => Except.ok "") (fun _ => []) "empty.txt" rfl

theorem foldl_skip_failures (processOne : String → Except ProcError (List Chunk)) :
    ∀ (files : List String) (acc : List Chunk),
      files.foldl (fun acc f =>
        match processOne f with
        | Except.ok cs => acc ++ cs
        | Except.error _ => acc) acc =
      acc ++ (files.filterMap fun f => (processOne f).toOption).flatten := by
  intro files
  induction files with
  | nil => intro acc; simp
  | cons f fs ih =>
    intro acc
    cases hp : processOne f with
    | ok cs =>
      simp only [List.foldl_cons, hp, List.filterMap_cons, Except.toOption,
        List.flatten_cons, ih]
      rw [List.append_assoc]
    | error e =>
      simp only [List.foldl_cons, hp, List.filterMap_cons, Except.toOption, ih]

/-- C8: per-file failures during directory processing are skipped, the
loop continues, and both the chunk collection and the reported
chunks_indexed count are exactly the aggregate over the successfully
processed files. -/
theorem directory_failures_skipped (files : List String)
    (processOne : String → Except ProcError (List Chunk)) :
    processDirectory files processOne =
      ((files.filterMap fun f => (processOne f).toOption).flatten) ∧
    (indexDirectory files processOne).chunks_indexed =
      ((files.filterMap fun f => (processOne f).toOption).flatten).length := by
  have h : processDirectory files processOne =
      (files.filterMap fun f => (processOne f).toOption).flatten := by
    unfold processDirectory
    simpa using foldl_skip_failures processOne files []
  refine ⟨h, ?_⟩
  show (if (processDirectory files processOne).isEmpty = true then
      ({ status := "error", message := "No documents found or processed",
         chunks_indexed := 0 } : IndexResult)
    else
      { status := "success", message := "Directory indexed successfully",
        chunks_indexed := (processDirectory files processOne).length }).chunks_indexed =
    ((files.filterMap fun f => (processOne f).toOption).flatten).length
  by_cases he : (processDirectory files processOne).isEmpty = true
  · rw [if_pos he]
    have he₂ : processDirectory files processOne = [] := by
      rwa [List.isEmpty_iff] at he
    have hflat : (files.filterMap fun f => (processOne f).toOption).flatten = [] := by
      rw [← h]
      exact he₂
    rw [hflat]
    rfl
  · rw [if_neg he]
    show (processDirectory files processOne).length = _
    rw [h]

/-- C3: when the vector-store search returns no results, query answers
with the fixed no-information string, empty context and empty sources, and
makes no generation call (invocation count 0). -/
theorem query_no_results_fixed_answer (results : List SearchResult)
    (gen : String → String) (includeSources : Bool) (q : String)
    (h : results = []) :
    ragQuery results gen includeSources q =
      ({ answer := noInfoAnswer, context := [], sources := some [] }, 0) := by
  subst h
  rfl

/-- C3 witness: the empty-results query at a concrete query string. -/
theorem query_no_results_fixed_answer_witness :
    ragQuery [] (fun _ => "generated") true "no match" =
      ({ answer := noInfoAnswer, context := [], sources := some [] }, 0) :=
  query_no_results_fixed_answer [] (fun _ => "generated") true "no match" rfl

theorem attemptLoop_le {E A : Type} (f : Nat → Except E A) :
    ∀ rem start, (attemptLoop f rem start).2 ≤ rem + 1 := by
  intro rem
  induction rem with
  | zero => intro start; simp [attemptLoop]
  | succ r ih =>
    intro start
    simp only [attemptLoop]
    cases hf : f start with
    | ok a => simp
    | error e =>
      simp only []
      have := ih (start + 1)
      omega

theorem attemptLoop_persistent {E A : Type} (f : Nat → Except E A) (e : E)
    (hf : ∀ n, f n = Except.error e) :
    ∀ rem start, attemptLoop f rem start = (Except.error e, rem + 1) := by
  intro rem
  induction rem with
  | zero => intro start; simp [attemptLoop, hf]
  | succ r ih => intro start; simp [attemptLoop, hf, ih]

theorem outerLoop_le {E A : Type} (p : Nat → Except E A) :
    ∀ rem start, (outerLoop p rem start).2 ≤ 3 * (rem + 1) := by
  intro rem
  induction rem with
  | zero =>
    intro start
    simpa [outerLoop, generateEmbeddings] using attemptLoop_le p 2 start
  | succ r ih =>
    intro start
    simp only [outerLoop]
    cases hf : (generateEmbeddings p start).1 with
    | ok a =>
      have := attemptLoop_le p 2 start
      simpa [generateEmbeddings] using this.trans (by omega)
    | error e =>
      simp only []
      have h1 : (generateEmbeddings p start).2 ≤ 3 := attemptLoop_le p 2 start
      have h2 := ih (start + (generateEmbeddings p start).2)
      omega

theorem outerLoop_persistent {E A : Type} (p : Nat → Except E A) (e : E)
    (hf : ∀ n, p n = Except.error e) :
    ∀ rem start, outerLoop p rem start = (Except.error e, 3 * (rem + 1)) := by
  intro rem
  induction rem with
  | zero =>
    intro start
    simp [outerLoop, generateEmbeddings, attemptLoop_persistent p e hf]
  | succ r ih =>
    intro start
    simp only [outerLoop, generateEmbeddings, attemptLoop_persistent p e hf, ih]
    have harith : 2 + 1 + 3 * (r + 1) = 3 * (r + 1 + 1) := by ring
    rw [harith]

/-- C4 (amended): the batch call generate_embeddings attempts a
persistently failing provider exactly 3 times and surfaces the error; the
single-text wrapper generate_embedding, carrying its own retry of the
already-retried batch call, attempts it 9 times in total.  3 and 9 are
also upper bounds for any provider behaviour. -/
theorem embedding_retry_attempt_counts {E A : Type}
    (provider : Nat → Except E A) (e : E)
    (hf : ∀ n, provider n = Except.error e) :
    (generateEmbeddings provider 0).1 = Except.error e ∧
    (generateEmbeddings provider 0).2 = 3 ∧
    (generateEmbedding provider).1 = Except.error e ∧
    (generateEmbedding provider).2 = 9 ∧
    (∀ q : Nat → Except E A, (generateEmbeddings q 0).2 ≤ 3) ∧
    (∀ q : Nat → Except E A, (generateEmbedding q).2 ≤ 9) := by
  have h1 : generateEmbeddings provider 0 = (Except.error e, 3) := by
    simpa [generateEmbeddings] using attemptLoop_persistent provider e hf 2 0
  have h2 : generateEmbedding provider = (Except.error e, 9) := by
    simpa [generateEmbedding] using outerLoop_persistent provider e hf 2 0
  refine ⟨by rw [h1], by rw [h1], by rw [h2], by rw [h2], ?_, ?_⟩
  · intro q
    exact attemptLoop_le q 2 0
  · intro q
    simpa [generateEmbedding] using outerLoop_le q 2 0

/-- C4 witness: the count theorem at a concrete always-failing provider. -/
theorem embedding_retry_attempt_counts_witness :
    (generateEmbeddings (fun _ => (Except.error "boom" : Except String (List Rat))) 0).1 =
      Except.error "boom" ∧
    (generateEmbeddings (fun _ => (Except.error "boom" : Except String (List Rat))) 0).2 = 3 ∧
    (generateEmbedding (fun _ => (Except.error "boom" : Except String (List Rat)))).1 =
      Except.error "boom" ∧
    (generateEmbedding (fun _ => (Except.error "boom" : Except String (List Rat)))).2 = 9 ∧
    (∀ q : Nat → Except String (List Rat), (generateEmbeddings q 0).2 ≤ 3) ∧
    (∀ q : Nat → Except String (List Rat), (generateEmbedding q).2 ≤ 9) :=
  embedding_retry_attempt_counts (fun _ => Except.error "boom") "boom" (fun _ => rfl)

/-- C4 counterexample: through the single-text wrapper a persistently
failing provider call is attempted 9 times, not at most 3 — the wrapper
stacks its own stop_after_attempt(3) retry on the already-retried batch
call. -/
theorem generate_embedding_exceeds_three_attempts :
    (generateEmbedding (fun _ => (Except.error "boom" : Except String (List Rat)))).2 = 9 ∧
    ¬((generateEmbedding (fun _ => (Except.error "boom" : Except String (List Rat)))).2 ≤ 3) := by
  constructor
  · rfl
  · decide

/-- Settings with chunk overlap equal to chunk size, in words. -/
def overlapEqSettings : Settings :=
  { ragChunkSize := 80
    ragChunkOverlap := 80
    ragTopK := 5
    ragScoreThreshold := (7 : Rat) / 10 }

/-- C6 counterexample: settings with chunk overlap equal to chunk size
(80 = 80 words).  Construction succeeds — the underlying langchain check
only rejects a strictly larger overlap — refuting fail-fast for
overlap = size. -/
theorem overlap_eq_size_accepted :
    overlapEqSettings.ragChunkOverlap ≥ overlapEqSettings.ragChunkSize ∧
    (documentProcessorInit overlapEqSettings).isOk = true := by
  constructor
  · decide
  · rfl

/-- C6 (amended): constructing the DocumentProcessor fails fast exactly
when the configured overlap is strictly greater than the chunk size
(langchain ValueError); overlap equal to the chunk size is accepted and
chunking proceeds. -/
theorem document_processor_init_fails_iff (s : Settings) :
    (documentProcessorInit s).isOk = false ↔ s.ragChunkOverlap > s.ragChunkSize := by
  by_cases h : s.ragChunkOverlap > s.ragChunkSize
  · have h5 : s.ragChunkOverlap * 5 > s.ragChunkSize * 5 := by omega
    simp [documentProcessorInit, h5, h, Except.isOk, Except.toBool]
  · have h5 : ¬(s.ragChunkOverlap * 5 > s.ragChunkSize * 5) := by omega
    simp [documentProcessorInit, h5, h, Except.isOk, Except.toBool]

end RAGSpec
